import Mathlib

/-!
Verification development for the ringo repository: a multilingual RAG chat
application with an Expo (React Native) frontend under src/frontend and a
FastAPI backend (main.py, pipeline.py, langchain_rag.py / rag_engine.py)
that is referenced by the READMEs but is not part of the source tree here.

Frontend code is embedded directly from the TypeScript source.  Backend
behaviour that the frontend only calls into is modelled from the
specification; every such definition carries a doc comment starting with
`Modelled from the spec:` naming the missing file.
-/

namespace Ringo

/-! ## Frontend data model (frontend/services/api.ts, current revision) -/

/-- The sender field of a chat message. -/
inductive Sender where
  | user : Sender
  | ai : Sender
  deriving DecidableEq, Repr

/-- A chat message as held in the ChatScreen state.  Timestamps are modelled
as natural numbers (milliseconds since epoch, as produced by Date.now). -/
structure Message where
  id : String
  text : String
  sender : Sender
  timestamp : Nat
  isAudio : Bool := false
  audio_data : Option String := none
  audio_available : Option Bool := none
  language : Option String := none
  deriving DecidableEq, Repr

/-- A server-sent event as parsed by sendTextMessageStream: a JSON object
with a type tag and a value. -/
structure SSEvent where
  type : String
  value : String
  deriving DecidableEq, Repr

/-! ## Speech locale mapping (frontend/app/index.tsx, both revisions)

The chained conditional passed to Speech.speak maps en to en-US, hi to
hi-IN, ta to ta-IN and any other detectedLang value to te-IN. -/

def speechLocale (lang : String) : String :=
  if lang = "en" then "en-US"
  else if lang = "hi" then "hi-IN"
  else if lang = "ta" then "ta-IN"
  else "te-IN"

/-! ## Streaming chunk handler (frontend/app/index.tsx handleSendText,
streaming branch; identical logic in both revisions) -/

/-- The functional update applied on a content event:
`prev.map(msg => msg.id === aiMessageId ? \x7b ...msg, text \x7d : msg)`. -/
def setMessageText (msgs : List Message) (aiMessageId : String) (newText : String) :
    List Message :=
  msgs.map (fun msg => if msg.id = aiMessageId then { msg with text := newText } else msg)

/-- Client-side state of one streaming request: the accumulator streamedText,
the detected language, the message list, and the list of (text, locale)
pairs passed to Speech.speak so far. -/
structure StreamState where
  streamedText : String
  detectedLang : String
  messages : List Message
  spoken : List (String × String)
  deriving DecidableEq, Repr

/-- The onChunk callback of handleSendText (streaming branch):
a language event overwrites detectedLang, a content event appends to
streamedText and rewrites the placeholder message, a done event speaks the
accumulated text with the mapped locale.  Any other type is ignored. -/
def handleStreamChunk (aiMessageId : String) (s : StreamState) (chunk : SSEvent) :
    StreamState :=
  if chunk.type = "language" then
    { s with detectedLang := chunk.value }
  else if chunk.type = "content" then
    let newText := s.streamedText ++ chunk.value
    { s with
        streamedText := newText
        messages := setMessageText s.messages aiMessageId newText }
  else if chunk.type = "done" then
    { s with spoken := s.spoken ++ [(s.streamedText, speechLocale s.detectedLang)] }
  else s

/-- Processing a whole event stream, in order, through the chunk handler. -/
def processStream (aiMessageId : String) (events : List SSEvent) (init : StreamState) :
    StreamState :=
  events.foldl (handleStreamChunk aiMessageId) init

/-- The state of handleSendText just before the stream starts: empty
accumulator, detectedLang initialised from the selected language, and the
empty placeholder AI message appended to the previous messages. -/
def initialStreamState (selectedLanguage : String) (prevMessages : List Message)
    (aiMessageId : String) (now : Nat) : StreamState :=
  { streamedText := ""
    detectedLang := selectedLanguage
    messages := prevMessages ++ [{ id := aiMessageId, text := "", sender := .ai, timestamp := now }]
    spoken := [] }

/-- Concatenation, in emission order, of the values of all content events. -/
def contentConcat : List SSEvent → String
  | [] => ""
  | e :: evs => (if e.type = "content" then e.value else "") ++ contentConcat evs

/-- Number of done events in an event stream. -/
def doneCount (evs : List SSEvent) : Nat :=
  (evs.filter (fun e => e.type = "done")).length

/-! ## Frontend input guard (frontend/components/chat-input.tsx handleSend) -/

/-- Both-ends whitespace strip over the character list, the meaning of the
JavaScript String.prototype.trim call used throughout the frontend (and of
the cleaning step of the backend normalizer). -/
def trimString (s : String) : String :=
  ⟨((s.data.dropWhile Char.isWhitespace).reverse.dropWhile Char.isWhitespace).reverse⟩

/-- handleSend of chat-input.tsx: `if (message.trim() && !isLoading)` send
the trimmed message, otherwise do nothing.  The returned option is the text
passed to onSendText, none meaning no send happens. -/
def handleSend (message : String) (isLoading : Bool) : Option String :=
  if trimString message ≠ "" ∧ isLoading = false then some (trimString message) else none

/-! ## On-demand TTS plumbing (frontend/services/api.ts generateTTS and
frontend/app/index.tsx playMessageAudio, current revision) -/

/-- Response shape of the /tts/generate endpoint as consumed by generateTTS. -/
structure TTSResponse where
  audio_data : Option String
  audio_available : Bool
  deriving DecidableEq, Repr

/-- playMessageAudio of index.tsx, reduced to its data flow: with cached
audio the generateTTS collaborator is not called; without it, generateTTS is
called once and, when audio comes back, the result is stored on the message
with the given id.  Result: (new message list, number of generateTTS calls,
audio played if any). -/
def playMessageAudio (generateTTS : String → String → TTSResponse)
    (messages : List Message) (messageId messageText messageLang : String)
    (cachedAudioData : Option String) : List Message × Nat × Option String :=
  match cachedAudioData with
  | some audioData => (messages, 0, some audioData)
  | none =>
    let resp := generateTTS messageText messageLang
    match resp.audio_data with
    | none => (messages, 1, none)
    | some audioData =>
      (messages.map (fun msg =>
        if msg.id = messageId then
          { msg with audio_data := some audioData, audio_available := some true }
        else msg), 1, some audioData)

/-! ## Audio-turn adapter (frontend/components/chat-messages.tsx bundle,
current revision of services/api.ts sendAudioMessage) -/

/-- JavaScript string-or: the left operand unless it is absent or empty. -/
def orString (a : Option String) (b : String) : String :=
  match a with
  | some s => if s = "" then b else s
  | none => b

/-- JSON body returned by the /chat/audio endpoint, as read by the current
sendAudioMessage (fields may be absent). -/
structure BackendAudioJson where
  transcription : Option String
  response : Option String
  language : Option String
  deriving DecidableEq, Repr

/-- Result type of sendAudioMessage in the current revision: three text
fields, no audio bytes. -/
structure AudioChatResponse where
  transcription : String
  responseText : String
  language : String
  deriving DecidableEq, Repr

/-- The return value construction of the current sendAudioMessage:
transcription and responseText fall back to the empty string, language
falls back to the request language and then to en. -/
def mkAudioChatResponse (data : BackendAudioJson) (language : Option String) :
    AudioChatResponse :=
  { transcription := orString data.transcription ""
    responseText := orString data.response ""
    language := orString data.language (orString language "en") }

/-! ## Answer Generator (backend, not under src/) -/

/-- One entry of a RetrievalResult: a retrieved chunk with its relevance
score (scores kept abstract as integers; only ordering and emptiness
matter here). -/
structure RetrievalEntry where
  chunk_id : Nat
  chunk_text : String
  score : Int
  deriving DecidableEq, Repr

/-- The fixed English refusal string (README, How It Works: "If no relevant
content found: Information not available in internal documents."). -/
def refusalEn : String := "Information not available in internal documents."

/-- Modelled from the spec: per-language localization of the refusal string
(backend langchain_rag.py, not under src/).  Only the English form is given
verbatim by the source README; other languages come from an unspecified
table, defaulting to the English form. -/
def localizeRefusal (table : List (String × String)) (lang : String) : String :=
  match table.find? (fun p => p.1 = lang) with
  | some p => p.2
  | none => refusalEn

/-- Modelled from the spec: prompt construction of the Answer Generator
(backend langchain_rag.py, not under src/) — the retrieved chunk texts in
relevance order, then the query and the target language. -/
def buildPrompt (retrieval : List RetrievalEntry) (queryText lang : String) : String :=
  String.join (retrieval.map (fun e => e.chunk_text)) ++ "|" ++ queryText ++ "|" ++ lang

/-- Modelled from the spec: generate of the Answer Generator (backend
langchain_rag.py, not under src/).  Empty retrieval yields the localized
refusal without invoking the model; otherwise the model is invoked once on
the constrained prompt.  The second component counts model invocations. -/
def generate (llm : String → String) (table : List (String × String))
    (retrieval : List RetrievalEntry) (queryText lang : String) : String × Nat :=
  if retrieval.isEmpty then (localizeRefusal table lang, 0)
  else (llm (buildPrompt retrieval queryText lang), 1)

/-- The answer text of the non-streaming call. -/
def answerOf (llm : String → String) (table : List (String × String))
    (retrieval : List RetrievalEntry) (queryText lang : String) : String :=
  (generate llm table retrieval queryText lang).1

/-! ## Streaming variant (backend, not under src/) -/

/-- Modelled from the spec: the event stream emitted by the streaming
variant of generation (backend main.py / pipeline.py, not under src/).
On upstream success the fragments are emitted as content events between one
language event and one terminal done event; an upstream failure is mapped
to an error fragment followed by the single done event, not a dropped
connection. -/
def genStreamEvents (detected : String) (outcome : Except String (List String)) :
    List SSEvent :=
  match outcome with
  | .ok frs =>
    SSEvent.mk "language" detected :: frs.map (SSEvent.mk "content") ++ [SSEvent.mk "done" ""]
  | .error e =>
    [SSEvent.mk "content" e, SSEvent.mk "done" ""]

/-- The stream of a successful run delivering the given fragments. -/
def streamEventsOf (detected : String) (frs : List String) : List SSEvent :=
  genStreamEvents detected (.ok frs)

/-! ## Query Normalizer and Pipeline Orchestrator (backend, not under src/) -/

/-- Input modality of a query. -/
inductive Modality where
  | text : Modality
  | audio : Modality
  deriving DecidableEq, Repr

/-- The Query record of the data model. -/
structure Query where
  raw_input : String
  modality : Modality
  declared_language : Option String
  detected_language : String
  normalized_text : String
  deriving DecidableEq, Repr

/-- Normalization failure: the cleaned text is empty. -/
inductive NormError where
  | emptyInput : NormError
  deriving DecidableEq, Repr

/-- Modelled from the spec: the Query Normalizer (backend pipeline.py, not
under src/).  The text arm cleans the raw string, the audio arm first runs
the external transcription collaborator; an empty cleaned text fails with
EmptyInputError; the detected language is the declared one when supplied,
otherwise the output of the Language Detector on the cleaned text. -/
def normalizeQuery (transcribe : String → String) (detect : String → String)
    (modality : Modality) (rawInput : String) (declared : Option String) :
    Except NormError Query :=
  let cleaned :=
    match modality with
    | .text => trimString rawInput
    | .audio => trimString (transcribe rawInput)
  if cleaned = "" then .error .emptyInput
  else .ok
    { raw_input := rawInput
      modality := modality
      declared_language := declared
      detected_language :=
        match declared with
        | some d => d
        | none => detect cleaned
      normalized_text := cleaned }

/-- Outcome of one pipeline run as surfaced to the user. -/
inductive PipelineOutcome where
  | answer : String → PipelineOutcome
  | nothingToAnswer : PipelineOutcome
  deriving DecidableEq, Repr

/-- Trace of one pipeline run: the outcome together with how many times the
Retriever and the Answer Generator were invoked. -/
structure PipelineTrace where
  outcome : PipelineOutcome
  retrieveCalls : Nat
  generateCalls : Nat
  deriving DecidableEq, Repr

/-- Modelled from the spec: the Pipeline Orchestrator (backend pipeline.py,
not under src/).  A normalization failure short-circuits into the
user-facing nothing-to-answer result before the Retriever or the Answer
Generator run; otherwise retrieval and generation each run once. -/
def runPipeline (transcribe detect : String → String)
    (retrieve : String → List RetrievalEntry) (llm : String → String)
    (table : List (String × String)) (modality : Modality) (rawInput : String)
    (declared : Option String) : PipelineTrace :=
  match normalizeQuery transcribe detect modality rawInput declared with
  | .error .emptyInput =>
    { outcome := .nothingToAnswer, retrieveCalls := 0, generateCalls := 0 }
  | .ok q =>
    let r := retrieve q.normalized_text
    { outcome := .answer (answerOf llm table r q.normalized_text q.detected_language)
      retrieveCalls := 1
      generateCalls := 1 }

/-- Modelled from the spec: the audio-turn boundary of the core (backend
main.py, not under src/): audio and optional language in, transcription,
answer and detected language out as JSON — no audio bytes in the turn
response. -/
def audioTurn (transcribe detect : String → String)
    (retrieve : String → List RetrievalEntry) (llm : String → String)
    (table : List (String × String)) (audio : String) (language : Option String) :
    Except NormError BackendAudioJson :=
  match normalizeQuery transcribe detect .audio audio language with
  | .error e => .error e
  | .ok q =>
    let r := retrieve q.normalized_text
    .ok
      { transcription := some q.normalized_text
        response := some (answerOf llm table r q.normalized_text q.detected_language)
        language := some q.detected_language }

/-- Modelled from the spec: the TTS boundary call of the core (backend
main.py, not under src/): text and language in, audio bytes and an
availability flag out. -/
def ttsGenerate (tts : String → String → Option String) (text lang : String) :
    TTSResponse :=
  match tts text lang with
  | some bytes => { audio_data := some bytes, audio_available := true }
  | none => { audio_data := none, audio_available := false }

/-! ## Speech Synthesis Cache (backend, not under src/) -/

/-- Association lookup over the cache entries, keyed by (text, language). -/
def lookupKey (cache : List ((String × String) × String)) (k : String × String) :
    Option String :=
  match cache with
  | [] => none
  | (k1, v) :: rest => if k1 = k then some v else lookupKey rest k

/-- Modelled from the spec: synthesize of the Speech Synthesis Cache
(backend main.py TTS cache, not under src/).  Lookup-or-create keyed by
(text, language): a hit returns the stored bytes, a miss invokes the
external TTS collaborator once and stores the result before returning.
Result: (bytes, new cache, number of external synthesis calls). -/
def synthesize (tts : String → String → String)
    (cache : List ((String × String) × String)) (text lang : String) :
    String × List ((String × String) × String) × Nat :=
  match lookupKey cache (text, lang) with
  | some bytes => (bytes, cache, 0)
  | none =>
    let bytes := tts text lang
    (bytes, ((text, lang), bytes) :: cache, 1)

/-! ## Single-flight coalescing (backend, not under src/)

An interleaving model of two concurrent synthesis requests for the same
(text, language) key, following the per-key in-flight marker design of the
spec: an acquire step atomically checks the cache and the in-flight marker
(registering itself as the winner on a cold miss, subscribing as a waiter
otherwise), and the winner has a complete step that performs the one
external call, stores the bytes and resolves all waiters. -/

/-- The two concurrent callers. -/
inductive CallerId where
  | A : CallerId
  | B : CallerId
  deriving DecidableEq, Repr

/-- Progress of one caller: not yet started, subscribed to the in-flight
synthesis, or finished holding the received bytes. -/
inductive CallerStatus where
  | idle : CallerStatus
  | waiting : CallerStatus
  | got : String → CallerStatus
  deriving DecidableEq, Repr

/-- Shared state for the single key under contention: the cache slot, the
in-flight winner marker, both caller statuses and the external call count. -/
structure SFState where
  cache : Option String
  winner : Option CallerId
  a : CallerStatus
  b : CallerStatus
  calls : Nat
  deriving DecidableEq, Repr

/-- Scheduler actions: a caller performs its atomic acquire step, or the
in-flight winner completes the external synthesis. -/
inductive SFAct where
  | acquire : CallerId → SFAct
  | complete : CallerId → SFAct
  deriving DecidableEq, Repr

/-- Status of one caller in the shared state. -/
def getStatus (s : SFState) (c : CallerId) : CallerStatus :=
  match c with
  | .A => s.a
  | .B => s.b

/-- Replace the status of one caller in the shared state. -/
def setStatus (s : SFState) (c : CallerId) (st : CallerStatus) : SFState :=
  match c with
  | .A => { s with a := st }
  | .B => { s with b := st }

/-- Waiters receive the synthesized bytes when the winner completes. -/
def resolveStatus (v : String) (st : CallerStatus) : CallerStatus :=
  match st with
  | .waiting => .got v
  | st => st

/-- Modelled from the spec: one atomic step of the single-flight cache for
a fixed key whose synthesis result is v.  Acquire on a cached key is an
immediate hit; on a cold miss the caller registers as winner; on an
in-flight key the caller subscribes.  Complete is enabled only for the
registered winner: it pays the one external call, stores the bytes and
resolves every waiter.  Any other action is a stutter. -/
def sfStep (v : String) (s : SFState) (act : SFAct) : SFState :=
  match act with
  | .acquire c =>
    match getStatus s c with
    | .idle =>
      match s.cache with
      | some bytes => setStatus s c (.got bytes)
      | none =>
        match s.winner with
        | some _ => setStatus s c .waiting
        | none => { setStatus s c .waiting with winner := some c }
    | _ => s
  | .complete c =>
    if s.winner = some c then
      { cache := some v
        winner := none
        a := resolveStatus v s.a
        b := resolveStatus v s.b
        calls := s.calls + 1 }
    else s

/-- Run a whole schedule of steps. -/
def sfRun (v : String) (s : SFState) (acts : List SFAct) : SFState :=
  acts.foldl (sfStep v) s

/-- Initial state: cold cache, no in-flight synthesis, both callers idle. -/
def sfInit : SFState :=
  { cache := none, winner := none, a := .idle, b := .idle, calls := 0 }

/-- Safety invariant of the single-flight model: the cache only ever holds
the one synthesis result and is filled by exactly the one paid call; a
winner is registered only while the cache is cold; a finished caller holds
the synthesis result and the cache is already filled. -/
def sfInv (v : String) (s : SFState) : Prop :=
  (s.cache = none → s.calls = 0) ∧
  (∀ bytes, s.cache = some bytes → bytes = v ∧ s.calls = 1) ∧
  (s.winner ≠ none → s.cache = none) ∧
  (∀ bytes, s.a = .got bytes → bytes = v ∧ s.cache = some v) ∧
  (∀ bytes, s.b = .got bytes → bytes = v ∧ s.cache = some v)

/-- Concatenation of a fragment list, in order. -/
def concatFragments : List String → String
  | [] => ""
  | f :: fs => f ++ concatFragments fs

/-! ## Helper lemmas -/

/-- Rewriting the text of a record to its own text is the identity. -/
theorem message_set_text_self (m : Message) : { m with text := m.text } = m := rfl

/-- The accumulator streamedText after a whole stream is the initial value
followed by the concatenation of the content event values, in order. -/
theorem processStream_streamedText (aiId : String) (evs : List SSEvent) (s : StreamState) :
    (processStream aiId evs s).streamedText = s.streamedText ++ contentConcat evs := by
  induction evs generalizing s with
  | nil => simp [processStream, contentConcat]
  | cons e evs ih =>
    simp only [processStream, List.foldl_cons] at ih ⊢
    by_cases h1 : e.type = "language"
    · simp [handleStreamChunk, h1, ih, contentConcat]
    · by_cases h2 : e.type = "content"
      · simp [handleStreamChunk, h1, h2, ih, contentConcat, String.append_assoc]
      · by_cases h3 : e.type = "done"
        · simp [handleStreamChunk, h1, h2, h3, ih, contentConcat]
        · simp [handleStreamChunk, h1, h2, h3, ih, contentConcat]

/-- Updating the placeholder in a list in which no earlier message carries
its id only rewrites the final placeholder. -/
theorem setMessageText_append (prev : List Message) (pm : Message) (aiId t : String)
    (hpm : pm.id = aiId) (hprev : ∀ m ∈ prev, m.id ≠ aiId) :
    setMessageText (prev ++ [pm]) aiId t = prev ++ [{ pm with text := t }] := by
  induction prev with
  | nil => simp [setMessageText, hpm]
  | cons m ms ih =>
    have hm : m.id ≠ aiId := hprev m (List.mem_cons_self m ms)
    have hms : ∀ x ∈ ms, x.id ≠ aiId := fun x hx => hprev x (List.mem_cons_of_mem m hx)
    have := ih hms
    simp only [setMessageText, List.map_cons, List.cons_append] at this ⊢
    simp [hm, this]

/-- Message-list invariant of the stream handler: with the placeholder last
and its text equal to the accumulator, processing a stream leaves every
earlier message untouched and ends with the placeholder holding the
accumulated text. -/
theorem processStream_messages (aiId : String) (evs : List SSEvent)
    (prev : List Message) (pm : Message) (st dl : String) (sp : List (String × String))
    (hpm : pm.id = aiId) (hprev : ∀ m ∈ prev, m.id ≠ aiId) (htext : pm.text = st) :
    (processStream aiId evs ⟨st, dl, prev ++ [pm], sp⟩).messages
      = prev ++ [{ pm with text := st ++ contentConcat evs }] := by
  induction evs generalizing pm st dl sp with
  | nil =>
    simp only [processStream, List.foldl_nil, contentConcat]
    have : st ++ "" = st := by simp
    rw [this, ← htext, message_set_text_self]
  | cons e evs ih =>
    simp only [processStream, List.foldl_cons] at ih ⊢
    by_cases h1 : e.type = "language"
    · have hih := ih pm st e.value sp hpm htext
      simp [handleStreamChunk, h1, hih, contentConcat]
    · by_cases h2 : e.type = "content"
      · have hset := setMessageText_append prev pm aiId (st ++ e.value) hpm hprev
        have hih := ih { pm with text := st ++ e.value } (st ++ e.value) dl sp hpm rfl
        simp [handleStreamChunk, h1, h2, hset, hih, contentConcat, String.append_assoc]
      · by_cases h3 : e.type = "done"
        · have hih := ih pm st dl (sp ++ [(st, speechLocale dl)]) hpm htext
          simp [handleStreamChunk, h1, h2, h3, hih, contentConcat]
        · have hih := ih pm st dl sp hpm htext
          simp [handleStreamChunk, h1, h2, h3, hih, contentConcat]

/-- The content events of a fragment stream concatenate to the fragments. -/
theorem contentConcat_contents (frs : List String) :
    contentConcat (frs.map (SSEvent.mk "content") ++ [SSEvent.mk "done" ""])
      = concatFragments frs := by
  induction frs with
  | nil => simp [contentConcat, concatFragments]
  | cons f fs ih => simp [contentConcat, concatFragments, ih]

/-- The concatenation of all content events of a successful stream equals
the concatenation of its fragments. -/
theorem contentConcat_streamEventsOf (d : String) (frs : List String) :
    contentConcat (streamEventsOf d frs) = concatFragments frs := by
  simp [streamEventsOf, genStreamEvents, contentConcat, contentConcat_contents]

/-- The initial single-flight state satisfies the safety invariant. -/
theorem sfInv_init (v : String) : sfInv v sfInit := by
  refine ⟨fun _ => rfl, ?_, fun _ => rfl, ?_, ?_⟩ <;> intro b h <;> simp [sfInit] at h

/-- One step of the single-flight cache preserves the safety invariant. -/
theorem sfStep_inv (v : String) (s : SFState) (act : SFAct) (h : sfInv v s) :
    sfInv v (sfStep v s act) := by
  obtain ⟨h1, h2, h3, h4, h5⟩ := h
  cases act with
  | acquire c =>
    cases c with
    | A =>
      simp only [sfStep, getStatus]
      cases ha : s.a with
      | idle =>
        cases hc : s.cache with
        | some bytes =>
          obtain ⟨hbv, hcalls⟩ := h2 bytes hc
          refine ⟨?_, ?_, ?_, ?_, ?_⟩ <;> (try simp_all [setStatus]) <;> (try assumption)
        | none =>
          cases hw : s.winner with
          | some w => refine ⟨?_, ?_, ?_, ?_, ?_⟩ <;> (try simp_all [setStatus]) <;> (try assumption)
          | none => refine ⟨?_, ?_, ?_, ?_, ?_⟩ <;> (try simp_all [setStatus]) <;> (try assumption)
      | waiting => exact ⟨h1, h2, h3, h4, h5⟩
      | got bytes => exact ⟨h1, h2, h3, h4, h5⟩
    | B =>
      simp only [sfStep, getStatus]
      cases hb : s.b with
      | idle =>
        cases hc : s.cache with
        | some bytes =>
          obtain ⟨hbv, hcalls⟩ := h2 bytes hc
          refine ⟨?_, ?_, ?_, ?_, ?_⟩ <;> (try simp_all [setStatus]) <;> (try assumption)
        | none =>
          cases hw : s.winner with
          | some w => refine ⟨?_, ?_, ?_, ?_, ?_⟩ <;> (try simp_all [setStatus]) <;> (try assumption)
          | none => refine ⟨?_, ?_, ?_, ?_, ?_⟩ <;> (try simp_all [setStatus]) <;> (try assumption)
      | waiting => exact ⟨h1, h2, h3, h4, h5⟩
      | got bytes => exact ⟨h1, h2, h3, h4, h5⟩
  | complete c =>
    simp only [sfStep]
    by_cases hw : s.winner = some c
    · have hcn : s.cache = none := h3 (by simp [hw])
      have hc0 : s.calls = 0 := h1 hcn
      simp only [hw, if_pos rfl]
      refine ⟨?_, ?_, ?_, ?_, ?_⟩
      · intro hx; exact absurd hx (by simp)
      · intro bytes hbb
        have hbv : bytes = v := by simpa using hbb.symm
        exact ⟨hbv, by simp [hc0]⟩
      · intro hx; exact absurd rfl hx
      · intro bytes hbb
        cases has : s.a with
        | idle => simp [resolveStatus, has] at hbb
        | waiting =>
          have : v = bytes := by simpa [resolveStatus, has] using hbb
          exact ⟨this.symm, rfl⟩
        | got b0 =>
          obtain ⟨_, hcs⟩ := h4 b0 has
          rw [hcn] at hcs; cases hcs
      · intro bytes hbb
        cases hbs : s.b with
        | idle => simp [resolveStatus, hbs] at hbb
        | waiting =>
          have : v = bytes := by simpa [resolveStatus, hbs] using hbb
          exact ⟨this.symm, rfl⟩
        | got b0 =>
          obtain ⟨_, hcs⟩ := h5 b0 hbs
          rw [hcn] at hcs; cases hcs
    · simp only [if_neg hw]
      exact ⟨h1, h2, h3, h4, h5⟩

/-- The safety invariant holds after any schedule. -/
theorem sfRun_inv (v : String) (acts : List SFAct) (s : SFState) (h : sfInv v s) :
    sfInv v (sfRun v s acts) := by
  induction acts generalizing s with
  | nil => exact h
  | cons act acts ih =>
    simp only [sfRun, List.foldl_cons]
    exact ih _ (sfStep_inv v s act h)

/-! ## Claims -/

/-- C1: on an empty RetrievalResult the Answer Generator returns the
localized fixed refusal with zero model invocations (the English form being
the fixed README string), and on any RetrievalResult its output is derived
from the retrieved chunk texts alone: two retrievals with the same texts
produce the same output. -/
theorem C1_generator_refusal_on_empty (llm : String → String)
    (table : List (String × String)) (queryText lang : String) :
    generate llm table [] queryText lang = (localizeRefusal table lang, 0) ∧
    localizeRefusal [] "en" = "Information not available in internal documents." ∧
    ∀ r₁ r₂ : List RetrievalEntry,
      r₁.map (fun e => e.chunk_text) = r₂.map (fun e => e.chunk_text) →
      generate llm table r₁ queryText lang = generate llm table r₂ queryText lang := by
  refine ⟨rfl, rfl, ?_⟩
  intro r₁ r₂ hr
  have hp : buildPrompt r₁ queryText lang = buildPrompt r₂ queryText lang := by
    simp [buildPrompt, hr]
  have he : r₁.isEmpty = r₂.isEmpty := by
    cases r₁ <;> cases r₂ <;> simp_all
  simp [generate, he, hp]

/-- C1 witness: the derivability conjunct applied at two concrete
retrievals holding the same text. -/
theorem C1_generator_refusal_on_empty_witness :
    generate (fun p => p) [] [⟨0, "alpha", 5⟩] "q" "en"
      = generate (fun p => p) [] [⟨1, "alpha", 7⟩] "q" "en" :=
  (C1_generator_refusal_on_empty (fun p => p) [] "q" "en").2.2
    [⟨0, "alpha", 5⟩] [⟨1, "alpha", 7⟩] rfl

/-- C2: the synthesis cache is lookup-or-create keyed by (text, language):
a hit returns the stored bytes with no external call, a miss invokes the
external collaborator exactly once and stores the result under the key
before returning, after which the same key is served from the cache; on the
frontend, playMessageAudio with cached audio never calls generateTTS. -/
theorem C2_synthesize_lookup_or_create (tts : String → String → String)
    (cache : List ((String × String) × String)) (text lang : String)
    (hmiss : lookupKey cache (text, lang) = none) :
    synthesize tts cache text lang
      = (tts text lang, ((text, lang), tts text lang) :: cache, 1) ∧
    synthesize tts (((text, lang), tts text lang) :: cache) text lang
      = (tts text lang, ((text, lang), tts text lang) :: cache, 0) ∧
    (∀ cache2 bytes, lookupKey cache2 (text, lang) = some bytes →
      synthesize tts cache2 text lang = (bytes, cache2, 0)) ∧
    ∀ (gen : String → String → TTSResponse) (msgs : List Message) (mid mtext mlang d : String),
      playMessageAudio gen msgs mid mtext mlang (some d) = (msgs, 0, some d) := by
  refine ⟨?_, ?_, ?_, fun gen msgs mid mtext mlang d => rfl⟩
  · simp [synthesize, hmiss]
  · simp [synthesize, lookupKey]
  · intro cache2 bytes hhit
    simp [synthesize, hhit]

/-- C2 witness: a concrete miss followed by a hit on the same key. -/
theorem C2_synthesize_lookup_or_create_witness :
    synthesize (fun t l => t ++ l) [] "hello" "en"
      = ("helloen", [(("hello", "en"), "helloen")], 1) ∧
    synthesize (fun t l => t ++ l) [(("hello", "en"), "helloen")] "hello" "en"
      = ("helloen", [(("hello", "en"), "helloen")], 0) :=
  ⟨(C2_synthesize_lookup_or_create (fun t l => t ++ l) [] "hello" "en" rfl).1,
   (C2_synthesize_lookup_or_create (fun t l => t ++ l) [] "hello" "en" rfl).2.1⟩

/-- C3: in the single-flight model, under every schedule of the two
concurrent callers for the same key after which both callers hold a result,
exactly one external synthesis call was paid and both callers hold the same
bytes, namely the synthesis result. -/
theorem C3_concurrent_coalescing (v : String) (acts : List SFAct) (ba bb : String)
    (hA : (sfRun v sfInit acts).a = .got ba) (hB : (sfRun v sfInit acts).b = .got bb) :
    (sfRun v sfInit acts).calls = 1 ∧ ba = v ∧ bb = v := by
  obtain ⟨_, h2, _, h4, h5⟩ := sfRun_inv v acts sfInit (sfInv_init v)
  obtain ⟨hav, hcache⟩ := h4 ba hA
  obtain ⟨hbv, _⟩ := h5 bb hB
  exact ⟨(h2 v hcache).2, hav, hbv⟩

/-- C3 witness: the schedule acquire-acquire-complete delivers the
synthesis result to both callers with one external call. -/
theorem C3_concurrent_coalescing_witness :
    (sfRun "bytes" sfInit [.acquire .A, .acquire .B, .complete .A]).calls = 1 ∧
    "bytes" = "bytes" ∧ "bytes" = "bytes" :=
  C3_concurrent_coalescing "bytes" [.acquire .A, .acquire .B, .complete .A]
    "bytes" "bytes" rfl rfl

/-- C5: every streaming generation run, upstream failure included, emits
exactly one done event, and that event is terminal; a failure contributes
an error fragment before the single done event. -/
theorem C5_stream_exactly_one_done (detected : String)
    (outcome : Except String (List String)) :
    doneCount (genStreamEvents detected outcome) = 1 ∧
    (genStreamEvents detected outcome).getLast? = some (SSEvent.mk "done" "") ∧
    ∀ e, genStreamEvents detected (.error e)
        = [SSEvent.mk "content" e, SSEvent.mk "done" ""] := by
  refine ⟨?_, ?_, fun e => rfl⟩
  · cases outcome with
    | ok frs =>
      simp only [genStreamEvents, doneCount]
      induction frs with
      | nil => rfl
      | cons f fs ih => simpa [List.filter] using ih
    | error e => rfl
  · cases outcome with
    | ok frs =>
      simp only [genStreamEvents]
      exact List.getLast?_concat _
    | error e => rfl

/-- C4: in streaming mode the client receives the fragments in order and,
when the fragment concatenation equals the non-streaming answer for the
same query (the spec contract of the backend streaming variant), the
concatenation of all content events equals that answer, and the assembled
placeholder message text on the client equals that same answer. -/
theorem C4_streaming_refines_nonstreaming
    (llm : String → String) (table : List (String × String))
    (retrieval : List RetrievalEntry) (queryText lang detected : String)
    (frs : List String) (prev : List Message) (aiId selected : String) (now : Nat)
    (hfr : concatFragments frs = answerOf llm table retrieval queryText lang)
    (hprev : ∀ m ∈ prev, m.id ≠ aiId) :
    contentConcat (streamEventsOf detected frs)
      = answerOf llm table retrieval queryText lang ∧
    (processStream aiId (streamEventsOf detected frs)
        (initialStreamState selected prev aiId now)).messages
      = prev ++ [{ id := aiId, text := answerOf llm table retrieval queryText lang,
                   sender := .ai, timestamp := now }] := by
  constructor
  · rw [contentConcat_streamEventsOf, hfr]
  · have h := processStream_messages aiId (streamEventsOf detected frs) prev
      { id := aiId, text := "", sender := .ai, timestamp := now } "" selected [] rfl hprev rfl
    simp only [initialStreamState]
    rw [h, contentConcat_streamEventsOf, hfr]
    simp

/-- C4 witness: the spec example fragments assemble to the refusal answer. -/
theorem C4_streaming_refines_nonstreaming_witness :
    contentConcat (streamEventsOf "en"
        ["Informa", "tion not", " available in internal documents."])
      = answerOf (fun p => p) [] [] "q" "en" ∧
    (processStream "1" (streamEventsOf "en"
        ["Informa", "tion not", " available in internal documents."])
        (initialStreamState "auto" [] "1" 0)).messages
      = [] ++ [{ id := "1", text := answerOf (fun p => p) [] [] "q" "en",
                 sender := .ai, timestamp := 0 }] :=
  C4_streaming_refines_nonstreaming (fun p => p) [] [] "q" "en" "en"
    ["Informa", "tion not", " available in internal documents."] [] "1" "auto" 0
    (by decide) (by simp)

/-- C6: an input whose cleaned text is empty, on either arm, fails
normalization with EmptyInputError and the pipeline short-circuits into the
user-facing nothing-to-answer result with zero Retriever and zero Answer
Generator invocations; on the frontend, handleSend never sends a
whitespace-only message. -/
theorem C6_empty_input_short_circuits
    (transcribe detect : String → String)
    (retrieve : String → List RetrievalEntry) (llm : String → String)
    (table : List (String × String)) (rawText audioIn : String) (declared : Option String)
    (htext : trimString rawText = "") (haudio : trimString (transcribe audioIn) = "") :
    normalizeQuery transcribe detect .text rawText declared = .error .emptyInput ∧
    normalizeQuery transcribe detect .audio audioIn declared = .error .emptyInput ∧
    runPipeline transcribe detect retrieve llm table .text rawText declared
      = { outcome := .nothingToAnswer, retrieveCalls := 0, generateCalls := 0 } ∧
    runPipeline transcribe detect retrieve llm table .audio audioIn declared
      = { outcome := .nothingToAnswer, retrieveCalls := 0, generateCalls := 0 } ∧
    handleSend rawText false = none := by
  have h1 : normalizeQuery transcribe detect .text rawText declared = .error .emptyInput := by
    simp [normalizeQuery, htext]
  have h2 : normalizeQuery transcribe detect .audio audioIn declared = .error .emptyInput := by
    simp [normalizeQuery, haudio]
  refine ⟨h1, h2, ?_, ?_, ?_⟩
  · simp [runPipeline, h1]
  · simp [runPipeline, h2]
  · simp [handleSend, htext]

/-- C6 witness: a whitespace-only text input and an audio input that
transcribes to whitespace, both short-circuited. -/
theorem C6_empty_input_short_circuits_witness :
    runPipeline (fun _ => "	 ") (fun _ => "en") (fun _ => []) (fun p => p) []
        .text "   " none
      = { outcome := .nothingToAnswer, retrieveCalls := 0, generateCalls := 0 } ∧
    runPipeline (fun _ => "	 ") (fun _ => "en") (fun _ => []) (fun p => p) []
        .audio "blob" none
      = { outcome := .nothingToAnswer, retrieveCalls := 0, generateCalls := 0 } ∧
    handleSend "   " false = none := by
  have h := C6_empty_input_short_circuits (fun _ => "	 ") (fun _ => "en")
    (fun _ => []) (fun p => p) [] "   " "blob" none (by decide) (by decide)
  exact ⟨h.2.2.1, h.2.2.2.1, h.2.2.2.2⟩

/-- C7: when a declared language is supplied, the Query carries it as its
language, whatever the Language Detector would return; without one, the
detector populates it from the normalized text. -/
theorem C7_declared_language_precedence
    (transcribe detect : String → String) (modality : Modality) (raw d : String)
    (q1 q2 : Query)
    (h1 : normalizeQuery transcribe detect modality raw (some d) = .ok q1)
    (h2 : normalizeQuery transcribe detect modality raw none = .ok q2) :
    q1.detected_language = d ∧ q2.detected_language = detect q2.normalized_text := by
  constructor
  · simp only [normalizeQuery] at h1
    split at h1
    · cases h1
    · cases h1; rfl
  · simp only [normalizeQuery] at h2
    split at h2
    · cases h2
    · cases h2; rfl

/-- C7 witness: a concrete request with declared language hi keeps hi even
though the detector answers en; without a declaration the detector output
en is used. -/
theorem C7_declared_language_precedence_witness :
    (Query.mk "hola" .text (some "hi") "hi" "hola").detected_language = "hi" ∧
    (Query.mk "hola" .text none "en" "hola").detected_language
      = (fun _ => "en") (Query.mk "hola" .text none "en" "hola").normalized_text :=
  C7_declared_language_precedence (fun s => s) (fun _ => "en") .text "hola" "hi"
    (Query.mk "hola" .text (some "hi") "hi" "hola")
    (Query.mk "hola" .text none "en" "hola") rfl rfl

/-- C8: the audio-turn boundary returns exactly the transcription, the
answer text and the detected language as JSON text fields (the response
type has no audio field), the frontend adapter maps them through unchanged
when nonempty, and the TTS boundary returns audio bytes together with an
availability flag that is set exactly when bytes are present. -/
theorem C8_boundary_contract
    (transcribe detect : String → String) (retrieve : String → List RetrievalEntry)
    (llm : String → String) (table : List (String × String))
    (audio : String) (language : Option String) (q : Query)
    (tts : String → String → Option String)
    (hq : normalizeQuery transcribe detect .audio audio language = .ok q) :
    audioTurn transcribe detect retrieve llm table audio language
      = .ok { transcription := some q.normalized_text
              response := some (answerOf llm table (retrieve q.normalized_text)
                  q.normalized_text q.detected_language)
              language := some q.detected_language } ∧
    (∀ t ans lg lang2, t ≠ "" → ans ≠ "" → lg ≠ "" →
      mkAudioChatResponse
          { transcription := some t, response := some ans, language := some lg } lang2
        = { transcription := t, responseText := ans, language := lg }) ∧
    ∀ text lang2, (ttsGenerate tts text lang2).audio_available
        = (ttsGenerate tts text lang2).audio_data.isSome := by
  refine ⟨?_, ?_, ?_⟩
  · simp [audioTurn, hq]
  · intro t ans lg lang2 ht hans hlg
    simp [mkAudioChatResponse, orString, ht, hans, hlg]
  · intro text lang2
    cases h : tts text lang2 <;> simp [ttsGenerate, h]

/-- C8 witness: a concrete audio turn and TTS call. -/
theorem C8_boundary_contract_witness :
    audioTurn (fun _ => "hello") (fun _ => "en") (fun _ => []) (fun p => p) [] "a" none
      = .ok { transcription := some "hello",
              response := some "Information not available in internal documents.",
              language := some "en" } ∧
    mkAudioChatResponse
        { transcription := some "hello",
          response := some "Information not available in internal documents.",
          language := some "en" } none
      = { transcription := "hello",
          responseText := "Information not available in internal documents.",
          language := "en" } ∧
    (ttsGenerate (fun _ _ => some "B") "x" "en").audio_available
      = (ttsGenerate (fun _ _ => some "B") "x" "en").audio_data.isSome := by
  have h := C8_boundary_contract (fun _ => "hello") (fun _ => "en") (fun _ => [])
    (fun p => p) [] "a" none (Query.mk "a" .audio none "en" "hello")
    (fun _ _ => some "B") rfl
  exact ⟨h.1, h.2.1 "hello" "Information not available in internal documents." "en" none
    (by decide) (by decide) (by decide), h.2.2 "x" "en"⟩

/-- C9: a content event only rewrites the text of the message carrying the
placeholder id: the list keeps its length and order, every message with a
different id is returned unchanged in every field, and the matching message
keeps its id, sender, timestamp and remaining fields with only the text
replaced by the accumulated stream text. -/
theorem C9_content_event_frame (st dl v aiId : String) (sp : List (String × String))
    (msgs : List Message) :
    (handleStreamChunk aiId ⟨st, dl, msgs, sp⟩ ⟨"content", v⟩).messages
      = setMessageText msgs aiId (st ++ v) ∧
    (setMessageText msgs aiId (st ++ v)).length = msgs.length ∧
    ∀ (i : Nat) (m : Message), msgs[i]? = some m →
      (m.id ≠ aiId → (setMessageText msgs aiId (st ++ v))[i]? = some m) ∧
      (m.id = aiId → (setMessageText msgs aiId (st ++ v))[i]?
          = some { id := m.id, text := st ++ v, sender := m.sender,
                   timestamp := m.timestamp, isAudio := m.isAudio,
                   audio_data := m.audio_data, audio_available := m.audio_available,
                   language := m.language }) := by
  refine ⟨by simp [handleStreamChunk], by simp [setMessageText], ?_⟩
  intro i m hm
  constructor
  · intro hne
    simp [setMessageText, hm, hne]
  · intro heq
    simp [setMessageText, hm, heq]

/-- C9 witness: a two-message list in which only the placeholder changes. -/
theorem C9_content_event_frame_witness :
    (setMessageText
        [{ id := "u1", text := "hi", sender := .user, timestamp := 0 },
         { id := "a1", text := "", sender := .ai, timestamp := 1 }] "a1" ("" ++ "Hel"))[0]?
      = some { id := "u1", text := "hi", sender := .user, timestamp := 0 } ∧
    (setMessageText
        [{ id := "u1", text := "hi", sender := .user, timestamp := 0 },
         { id := "a1", text := "", sender := .ai, timestamp := 1 }] "a1" ("" ++ "Hel"))[1]?
      = some { id := "a1", text := "" ++ "Hel", sender := .ai, timestamp := 1 } := by
  have h := C9_content_event_frame "" "x" "Hel" "a1" []
    [{ id := "u1", text := "hi", sender := .user, timestamp := 0 },
     { id := "a1", text := "", sender := .ai, timestamp := 1 }]
  exact ⟨(h.2.2 0 { id := "u1", text := "hi", sender := .user, timestamp := 0 } rfl).1
      (by decide),
    (h.2.2 1 { id := "a1", text := "", sender := .ai, timestamp := 1 } rfl).2 rfl⟩

/-- C10: the speech locale is en-US for en, hi-IN for hi, ta-IN for ta and
te-IN for every other value, auto and unknown codes included, and the done
handler speaks the accumulated text under the locale mapped from the
current detected language. -/
theorem C10_speech_locale_fallback (st dl v aiId l : String)
    (sp : List (String × String)) (msgs : List Message)
    (h1 : l ≠ "en") (h2 : l ≠ "hi") (h3 : l ≠ "ta") :
    speechLocale "en" = "en-US" ∧ speechLocale "hi" = "hi-IN" ∧
    speechLocale "ta" = "ta-IN" ∧ speechLocale "auto" = "te-IN" ∧
    speechLocale l = "te-IN" ∧
    (handleStreamChunk aiId ⟨st, dl, msgs, sp⟩ ⟨"done", v⟩).spoken
      = sp ++ [(st, speechLocale dl)] := by
  refine ⟨by decide, by decide, by decide, by decide, ?_, by simp [handleStreamChunk]⟩
  simp [speechLocale, h1, h2, h3]

/-- C10 witness: the fallback applied to the unknown code fr. -/
theorem C10_speech_locale_fallback_witness :
    speechLocale "auto" = "te-IN" ∧ speechLocale "fr" = "te-IN" := by
  have h := C10_speech_locale_fallback "" "auto" "" "1" "fr" [] []
    (by decide) (by decide) (by decide)
  exact ⟨h.2.2.2.1, h.2.2.2.2.1⟩

end Ringo
